import Mathlib

/-!
Shallow embedding of the SSP-SP Data Filter utilities
(`src/utils/geo_utils.py`, `src/utils/cache_manager.py`,
`src/utils/city_filter.py`, `src/config/settings.py`) and proofs about them.

Python `float` values are modelled by `PyFloat` (an exact rational, a signed
infinity, or NaN); a Python object stored in a record field is modelled by the
two observations the code makes of it: its `str()` form and the result of
`float()` applied to it.  The transcendental haversine formula of
`calculate_distance` is modelled separately over `ℝ`; where
`find_records_in_radius` calls it, the embedding keeps the distance function
as a field of the `GeoUtils` structure, exactly as the Python method
dispatches through `self`.
-/

/-- Model of a Python `float`: a finite value (exact rational), `inf`/`-inf`,
or `nan`.  Python's single signed zero collapses to the rational `0`. -/
inductive PyFloat where
  | finite (q : ℚ)
  | inf (pos : Bool)
  | nan
deriving DecidableEq, Repr

/-- Python `<=` on floats: any comparison with `nan` is `False`;
infinities compare as usual. -/
def pyLe : PyFloat → PyFloat → Bool
  | .nan, _ => false
  | _, .nan => false
  | .inf a, .inf b => !a || b
  | .inf a, .finite _ => !a
  | .finite _, .inf b => b
  | .finite a, .finite b => decide (a ≤ b)

/-- Python truthiness of a float: `0.0` (and `-0.0`) are falsy, every other
float — including `inf` and `nan` — is truthy. -/
def pyTruthy : PyFloat → Bool
  | .finite q => decide (q ≠ 0)
  | _ => true

/-- Python truthiness of an optional float (`None` is falsy), as used by
`if lat and lon:` where `lat`/`lon` are `None` or a float. -/
def optTruthy : Option PyFloat → Bool
  | none => false
  | some x => pyTruthy x

/-- A Python value stored in a record field, abstracted by the two
observations the code makes of it: `str(v)` and `float(v)` (`none` when
`float(v)` raises `ValueError`/`TypeError`). -/
structure PyVal where
  str : String
  asFloat : Option PyFloat
deriving DecidableEq, Repr

/-- A data record: a Python dict with string keys, modelled as an association
list with the first binding of a key the visible one. -/
abbrev Record := List (String × PyVal)

/-- One loaded data file: `{'categoria': ..., 'dados': [...]}`.  The source
reads these with `data.get('categoria', 'Desconhecida')` and
`data.get('dados', [])`; the model carries both fields directly. -/
structure DataGroup where
  categoria : String
  dados : List Record
deriving DecidableEq, Repr

/-- `settings.LATITUDE_FIELDS` from `src/config/settings.py`. -/
def LATITUDE_FIELDS : List String :=
  ["latitude", "lat", "coordenada_lat", "coord_lat", "LATITUDE"]

/-- `settings.LONGITUDE_FIELDS` from `src/config/settings.py`. -/
def LONGITUDE_FIELDS : List String :=
  ["longitude", "lon", "lng", "coordenada_lon", "coord_lon", "LONGITUDE"]

/-- `settings.ADDRESS_FIELDS` from `src/config/settings.py`. -/
def ADDRESS_FIELDS : List String :=
  ["endereco", "logradouro", "rua", "address", "local"]

/-- The `GeoUtils` class of `src/utils/geo_utils.py`: the field lists it
copies from `settings`, plus its `calculate_distance` method.  The method
computes the haversine formula with `math` routines; at this (float) level it
is carried as an opaque function field, and its mathematical properties are
proved about the real-valued model `calculate_distanceR` below. -/
structure GeoUtils where
  latitude_fields : List String
  longitude_fields : List String
  address_fields : List String
  calculate_distance : PyFloat → PyFloat → PyFloat → PyFloat → PyFloat

/-- A `GeoUtils` instance initialised from `settings`, with the distance
method abstracted as `d`. -/
def mkGeoUtils (d : PyFloat → PyFloat → PyFloat → PyFloat → PyFloat) : GeoUtils :=
  { latitude_fields := LATITUDE_FIELDS
    longitude_fields := LONGITUDE_FIELDS
    address_fields := ADDRESS_FIELDS
    calculate_distance := d }

/-- `float(record[field])` when `field in record`, `none` when the field is
absent or the conversion raises. -/
def fieldParse (rec : Record) (f : String) : Option PyFloat :=
  match rec.lookup f with
  | some v => v.asFloat
  | none => none

/-- The field-probing loop of `GeoUtils.extract_coordinates`: walk the field
list in order; if the field is present and `float()` succeeds, take that
value and stop, otherwise continue with the next field. -/
def firstFloat (rec : Record) : List String → Option PyFloat
  | [] => none
  | f :: fs =>
    match fieldParse rec f with
    | some x => some x
    | none => firstFloat rec fs

/-- `GeoUtils.extract_coordinates` (geo_utils.py lines 29-65): probe the
latitude fields and, independently, the longitude fields. -/
def extract_coordinates (g : GeoUtils) (rec : Record) :
    Option PyFloat × Option PyFloat :=
  (firstFloat rec g.latitude_fields, firstFloat rec g.longitude_fields)

/-- One entry of the list built by `find_records_in_radius`. -/
structure RecordWithDistance where
  categoria : String
  latitude : PyFloat
  longitude : PyFloat
  distancia_km : PyFloat
  dados_originais : Record
deriving DecidableEq, Repr

/-- The accumulation loop of `find_records_in_radius` (geo_utils.py lines
210-229), before sorting: for every record of every group, extract
coordinates; the Python guard `if lat and lon:` keeps a record only when both
coordinates are present *and truthy*; then keep it when
`distance <= radius_km`. -/
def radiusCandidates (g : GeoUtils) (center_lat center_lon radius_km : PyFloat)
    (all_data : List DataGroup) : List RecordWithDistance :=
  all_data.flatMap fun data =>
    data.dados.filterMap fun record =>
      match extract_coordinates g record with
      | (some lat, some lon) =>
        if pyTruthy lat && pyTruthy lon then
          let distance := g.calculate_distance center_lat center_lon lat lon
          if pyLe distance radius_km then
            some ⟨data.categoria, lat, lon, distance, record⟩
          else none
        else none
      | _ => none

/-- Stable insertion of a record into a list sorted by `distancia_km`
(before the first element not below it). -/
def insertByDist (x : RecordWithDistance) :
    List RecordWithDistance → List RecordWithDistance
  | [] => [x]
  | y :: ys =>
    if pyLe x.distancia_km y.distancia_km then x :: y :: ys
    else y :: insertByDist x ys

/-- A stable sort by `distancia_km`, modelling
`records_in_radius.sort(key=lambda x: x['distancia_km'])` (Python's sort is
stable; on the totally ordered non-NaN keys that reach it, any stable sort
produces the same list). -/
def sortByDist : List RecordWithDistance → List RecordWithDistance
  | [] => []
  | x :: xs => insertByDist x (sortByDist xs)

/-- `GeoUtils.find_records_in_radius` (geo_utils.py lines 195-238): collect
the candidate records, then sort by distance. -/
def find_records_in_radius (g : GeoUtils)
    (center_lat center_lon radius_km : PyFloat)
    (all_data : List DataGroup) : List RecordWithDistance :=
  sortByDist (radiusCandidates g center_lat center_lon radius_km all_data)

/-- A `\s` character of Python `re`, and a character removed by
`str.strip()` (ASCII fragment): space, tab, newline, carriage return,
vertical tab, form feed. -/
def isPySpace (c : Char) : Bool :=
  c == ' ' || c == '\t' || c == '\n' || c == '\r' || c == '\x0b' || c == '\x0c'

/-- `str.strip()`: drop whitespace from both ends. -/
def stripWs (l : List Char) : List Char :=
  ((l.dropWhile isPySpace).reverse.dropWhile isPySpace).reverse

/-- Python `str.split(sep)` for a one-character separator: always at least
one part; an empty string yields `['']`. -/
def splitOnChar (sep : Char) : List Char → List (List Char)
  | [] => [[]]
  | c :: rest =>
    let r := splitOnChar sep rest
    if c = sep then [] :: r
    else
      match r with
      | [] => [[c]]
      | h :: t => (c :: h) :: t

/-- Value of a decimal digit character. -/
def digitVal (c : Char) : Nat := c.toNat - 48

/-- Natural number denoted by a digit string. -/
def digitsToNat (cs : List Char) : Nat :=
  cs.foldl (fun acc c => 10 * acc + digitVal c) 0

/-- The unsigned-decimal part of Python `float()` parsing: digits with an
optional single point, at least one digit overall (`"5."`, `".5"`, `"91"`).
(Exponents and underscore separators of the full Python grammar are outside
the modelled fragment; none of the code's formats produce them.) -/
def parseUnsignedQ (cs : List Char) : Option ℚ :=
  let intPart := cs.takeWhile Char.isDigit
  let rest := cs.dropWhile Char.isDigit
  match rest with
  | [] => if intPart.isEmpty then none else some (digitsToNat intPart)
  | '.' :: frac =>
    if frac.all Char.isDigit && !(intPart.isEmpty && frac.isEmpty) then
      some ((digitsToNat intPart : ℚ) + (digitsToNat frac : ℚ) / 10 ^ frac.length)
    else none
  | _ => none

/-- Model of Python `float(s)` on a string: strip whitespace, take an
optional sign, then either one of the special names `inf`/`infinity`/`nan`
(case-insensitive) or an unsigned decimal literal.  Returns `none` where
`float()` raises `ValueError`. -/
def pyFloatOfChars (s : List Char) : Option PyFloat :=
  let cs := stripWs s
  let signBody : Bool × List Char :=
    match cs with
    | '+' :: rest => (false, rest)
    | '-' :: rest => (true, rest)
    | _ => (false, cs)
  let neg := signBody.1
  let body := signBody.2
  let low := body.map Char.toLower
  if low = "inf".data || low = "infinity".data then some (.inf (!neg))
  else if low = "nan".data then some .nan
  else
    match parseUnsignedQ body with
    | some q => some (.finite (if neg then -q else q))
    | none => none

/-- Model of Python `float(s)` on a `String`. -/
def pyFloatOfString (s : String) : Option PyFloat :=
  pyFloatOfChars s.data

/-- The part-checking tail of `GeoUtils.is_coordinate_format` (geo_utils.py
lines 104-140): require exactly two comma-separated parts, convert both with
`float()` (any failure yields `False`), then require the geographic bounds;
the chained Python comparisons `-90 <= lat <= 90` are `False` for `nan` and
out-of-range infinities exactly as `pyLe` renders them. -/
def formatParts (parts : List (List Char)) : Bool :=
  if parts.length != 2 then false
  else
    match pyFloatOfChars (stripWs (parts.headD [])),
          pyFloatOfChars (stripWs (parts.getD 1 [])) with
    | some lat, some lon =>
      pyLe (.finite (-90)) lat && pyLe lat (.finite 90) &&
        pyLe (.finite (-180)) lon && pyLe lon (.finite 180)
    | _, _ => false

/-- `GeoUtils.is_coordinate_format`, assembled: strip, check for a comma,
split, and check the parts. -/
def is_coordinate_format (query : String) : Bool :=
  let q := stripWs query.data
  if !q.contains ',' then false
  else formatParts (splitOnChar ',' q)

/-- `GeoUtils.parse_coordinates` (geo_utils.py lines 142-161): strip, split on
commas, convert `parts[0]` and `parts[1]` with `float()`.  `none` models the
`ValueError` the function raises (from a failed conversion or the
`IndexError` of `parts[1]` when there is no comma).  No bound check and no
check on the number of parts is performed.  This is the conversion applied
after stripping and splitting. -/
def parseParts (parts : List (List Char)) : Option (PyFloat × PyFloat) :=
  match pyFloatOfChars (stripWs (parts.headD [])) with
  | none => none
  | some lat =>
    match parts[1]? with
    | none => none
    | some p1 =>
      match pyFloatOfChars (stripWs p1) with
      | none => none
      | some lon => some (lat, lon)

/-- `GeoUtils.parse_coordinates`, assembled: strip, split, convert the first
two parts. -/
def parse_coordinates (coord_string : String) : Option (PyFloat × PyFloat) :=
  parseParts (splitOnChar ',' (stripWs coord_string.data))

/-- The lowercasing map of Python `str.lower` on the modelled alphabet:
ASCII `A`-`Z` plus the Latin-1 uppercase accented letters whose lowercase
forms the decomposition table covers.  Other characters are unchanged,
matching `str.lower` on the modelled alphabet. -/
def lowerTable : List (Char × Char) :=
  [   ('A', 'a'), ('B', 'b'), ('C', 'c'), ('D', 'd'), ('E', 'e'), ('F', 'f'),
   ('G', 'g'), ('H', 'h'), ('I', 'i'), ('J', 'j'), ('K', 'k'), ('L', 'l'),
   ('M', 'm'), ('N', 'n'), ('O', 'o'), ('P', 'p'), ('Q', 'q'), ('R', 'r'),
   ('S', 's'), ('T', 't'), ('U', 'u'), ('V', 'v'), ('W', 'w'), ('X', 'x'),
   ('Y', 'y'), ('Z', 'z'),
   ('À', 'à'), ('Á', 'á'), ('Â', 'â'), ('Ã', 'ã'), ('Ç', 'ç'), ('É', 'é'),
   ('Ê', 'ê'), ('Í', 'í'), ('Ó', 'ó'), ('Ô', 'ô'), ('Õ', 'õ'), ('Ú', 'ú'),
   ('Ü', 'ü')]

/-- Per-character model of Python `str.lower`. -/
def pyLower (c : Char) : Char := (lowerTable.lookup c).getD c

/-- Substring test, modelling Python's `needle in haystack` on strings. -/
def strContains (needle : List Char) : List Char → Bool
  | [] => needle.isEmpty
  | c :: rest => needle.isPrefixOf (c :: rest) || strContains needle rest

/-- The per-record, per-field body of `GeoUtils.search_by_street`
(geo_utils.py lines 174-189): for each address field present in the record
whose lowered `str()` value contains the lowered street name, extract
coordinates and return them when both are truthy; otherwise fall through. -/
def searchRecord (g : GeoUtils) (streetLower : List Char) (rec : Record) :
    Option (PyFloat × PyFloat) :=
  g.address_fields.findSome? fun field =>
    match rec.lookup field with
    | none => none
    | some v =>
      if strContains streetLower (v.str.toList.map pyLower) then
        match extract_coordinates g rec with
        | (some lat, some lon) =>
          if pyTruthy lat && pyTruthy lon then some (lat, lon) else none
        | _ => none
      else none

/-- `GeoUtils.search_by_street` (geo_utils.py lines 163-193): first record in
file order whose address matches and whose coordinates are truthy. -/
def search_by_street (g : GeoUtils) (street_name : String)
    (all_data : List DataGroup) : Option (PyFloat × PyFloat) :=
  all_data.findSome? fun data =>
    data.dados.findSome? (searchRecord g (street_name.toList.map pyLower))

/-- A `datetime.now()` instant: the calendar year (for `validate_year`) and
its `isoformat()` string (stored in cache entries). -/
structure Timestamp where
  year : Int
  iso : String
deriving DecidableEq, Repr

/-- A value of `processed_files[key]` as written by `mark_file_processed`. -/
structure FileEntry where
  category : String
  year : Int
  processed_at : Timestamp
  file_info : List (String × String)
deriving DecidableEq, Repr

/-- A value of `processed_cities[key]` as written by `mark_city_processed`. -/
structure CityEntry where
  category : String
  year : Int
  city : String
  processed_at : Timestamp
  file_info : List (String × String)
deriving DecidableEq, Repr

/-- The in-memory `available_years` value: a `set` when built in memory, a
`list` right after a JSON load (the code converts lazily in
`add_available_year` / `get_available_years`). -/
inductive YearsRep where
  | asSet (l : List Int)
  | asList (l : List Int)
deriving DecidableEq, Repr

/-- The in-memory `cache_data` dict of `CacheManager`
(`src/utils/cache_manager.py`).  Dicts are insertion-ordered association
lists with unique keys maintained by `dictInsert`. -/
structure CacheData where
  processed_files : List (String × FileEntry)
  processed_cities : List (String × CityEntry)
  available_years : YearsRep
  last_update : String
  version : String
deriving DecidableEq, Repr

/-- The default cache built by `_load_cache` when no cache file exists. -/
def emptyCache (now : Timestamp) : CacheData :=
  { processed_files := []
    processed_cities := []
    available_years := .asSet []
    last_update := now.iso
    version := "1.0" }

/-- Python dict assignment `m[k] = v`: replace the binding in place when the
key exists, append otherwise. -/
def dictInsert (k : String) (v : α) : List (String × α) → List (String × α)
  | [] => [(k, v)]
  | (k', v') :: rest =>
    if k' = k then (k, v) :: rest else (k', v') :: dictInsert k v rest

/-- The key `f"{category}_{year}"` of `is_file_processed` /
`mark_file_processed`. -/
def fileKey (category : String) (year : Int) : String :=
  category ++ "_" ++ toString year

/-- The key `f"{category}_{year}_{city}"` of `is_city_processed` /
`mark_city_processed`. -/
def cityKey (category : String) (year : Int) (city : String) : String :=
  category ++ "_" ++ toString year ++ "_" ++ city

/-- `CacheManager.is_file_processed` (cache_manager.py lines 61-64). -/
def is_file_processed (st : CacheData) (category : String) (year : Int) : Bool :=
  (st.processed_files.lookup (fileKey category year)).isSome

/-- `CacheManager.mark_file_processed` (cache_manager.py lines 66-75); `now`
is the `datetime.now()` of the call.  (The subsequent `_save_cache` writes
the state to disk and does not change it.) -/
def mark_file_processed (st : CacheData) (category : String) (year : Int)
    (file_info : List (String × String)) (now : Timestamp) : CacheData :=
  { st with
    processed_files :=
      dictInsert (fileKey category year)
        ⟨category, year, now, file_info⟩ st.processed_files }

/-- `CacheManager.is_city_processed` (cache_manager.py lines 77-80). -/
def is_city_processed (st : CacheData) (category : String) (year : Int)
    (city : String) : Bool :=
  (st.processed_cities.lookup (cityKey category year city)).isSome

/-- `CacheManager.mark_city_processed` (cache_manager.py lines 82-92). -/
def mark_city_processed (st : CacheData) (category : String) (year : Int)
    (city : String) (file_info : List (String × String)) (now : Timestamp) :
    CacheData :=
  { st with
    processed_cities :=
      dictInsert (cityKey category year city)
        ⟨category, year, city, now, file_info⟩ st.processed_cities }

/-- `CacheManager.add_available_year` (cache_manager.py lines 94-103):
coerce `available_years` to a set, then add the year. -/
def add_available_year (st : CacheData) (year : Int) : CacheData :=
  let l := match st.available_years with
    | .asSet l => l
    | .asList l => l.dedup
  { st with available_years := .asSet (if year ∈ l then l else l ++ [year]) }

/-- `CacheManager.validate_year` (cache_manager.py lines 112-118):
a year is allowed iff it is not in the future. -/
def validate_year (year : Int) (current_year : Int) : Bool :=
  !(year > current_year)

/-- `CacheManager.clear_cache` (cache_manager.py lines 128-138). -/
def clear_cache (now : Timestamp) : CacheData :=
  emptyCache now

/-- The persisted (JSON) form of the cache: `_save_cache` converts the
`available_years` set to a list; string-keyed dicts survive the JSON
round-trip unchanged and in order. -/
structure PersistedCache where
  processed_files : List (String × FileEntry)
  processed_cities : List (String × CityEntry)
  available_years : List Int
  last_update : String
  version : String
deriving DecidableEq, Repr

/-- `CacheManager._save_cache` (cache_manager.py lines 46-59), as the map
from in-memory state to the persisted form. -/
def save_cache (st : CacheData) : PersistedCache :=
  { processed_files := st.processed_files
    processed_cities := st.processed_cities
    available_years :=
      match st.available_years with
      | .asSet l => l
      | .asList l => l
    last_update := st.last_update
    version := st.version }

/-- `CacheManager._load_cache` (cache_manager.py lines 29-44) on an existing
cache file: the JSON dict comes back as written, with `available_years` now a
list. -/
def load_cache (p : PersistedCache) : CacheData :=
  { processed_files := p.processed_files
    processed_cities := p.processed_cities
    available_years := .asList p.available_years
    last_update := p.last_update
    version := p.version }

/-- One state-changing call on the `CacheManager`, tagged with the
`datetime.now()` of the call. -/
inductive LedgerOp where
  | markFile (category : String) (year : Int)
      (info : List (String × String)) (now : Timestamp)
  | markCity (category : String) (year : Int) (city : String)
      (info : List (String × String)) (now : Timestamp)
  | addYear (year : Int) (now : Timestamp)
  | clear (now : Timestamp)
deriving DecidableEq, Repr

/-- Apply one ledger operation to the in-memory state. -/
def applyOp (st : CacheData) : LedgerOp → CacheData
  | .markFile c y info t => mark_file_processed st c y info t
  | .markCity c y city info t => mark_city_processed st c y city info t
  | .addYear y _ => add_available_year st y
  | .clear t => clear_cache t

/-- Run a sequence of ledger operations. -/
def runOps (st : CacheData) (ops : List LedgerOp) : CacheData :=
  ops.foldl applyOp st

/-- The caller discipline of `SSPScraper.scrape_category` (scraper.py lines
252-276): a file is marked processed only after `validate_year` succeeded at
that moment.  `CacheManager` itself never checks this. -/
def gatedOp : LedgerOp → Bool
  | .markFile _ y _ t => validate_year y t.year
  | _ => true

/-- Canonical (NFD) decompositions of the precomposed lowercase Latin
letters of the modelled alphabet: base letter plus combining mark.  NFD
decompositions are fully expanded, so the produced characters decompose no
further. -/
def decompTable : List (Char × (Char × Char)) :=
  [('à', ('a', '̀')), ('á', ('a', '́')), ('â', ('a', '̂')), ('ã', ('a', '̃')),
   ('ç', ('c', '̧')), ('é', ('e', '́')), ('ê', ('e', '̂')), ('í', ('i', '́')),
   ('ó', ('o', '́')), ('ô', ('o', '̂')), ('õ', ('o', '̃')), ('ú', ('u', '́')),
   ('ü', ('u', '̈'))]

/-- `unicodedata.normalize('NFD', c)` for one character. -/
def decompChar (c : Char) : Option (Char × Char) := decompTable.lookup c

/-- `unicodedata.normalize('NFD', ...)` per character. -/
def nfdChar (c : Char) : List Char :=
  match decompChar c with
  | some (b, m) => [b, m]
  | none => [c]

/-- `unicodedata.combining(c) != 0` on the modelled alphabet: the combining
diacritical marks block. -/
def isCombining (c : Char) : Bool :=
  0x300 ≤ c.toNat && c.toNat ≤ 0x36F

/-- A `\w` character of Python `re` on the modelled alphabet: alphanumeric or
underscore. -/
def isWordChar (c : Char) : Bool :=
  c.isAlphanum || c == '_'

/-- `re.sub(r'\s+', ' ', ...)`: replace every maximal run of whitespace by a
single space. -/
def collapseWs : List Char → List Char
  | [] => []
  | [c] => if isPySpace c then [' '] else [c]
  | c :: d :: rest =>
    if isPySpace c then
      if isPySpace d then collapseWs (d :: rest)
      else ' ' :: collapseWs (d :: rest)
    else c :: collapseWs (d :: rest)

/-- `CityFilter.normalize_city_name` (city_filter.py lines 29-50) at the
character-list level: lowercase, NFD-decompose, drop combining marks, drop
characters that are neither `\w` nor `\s`, collapse whitespace runs, strip. -/
def normalizeL (l : List Char) : List Char :=
  stripWs (collapseWs
    ((((l.map pyLower).flatMap nfdChar).filter (fun c => !isCombining c)).filter
      (fun c => isWordChar c || isPySpace c)))

/-- `CityFilter.normalize_city_name` on strings. -/
def normalize_city_name (s : String) : String :=
  ⟨normalizeL s.data⟩

/-- `math.radians` over `ℝ`. -/
noncomputable def radiansR (x : ℝ) : ℝ := x * Real.pi / 180

/-- `math.atan2 y x` over `ℝ`, as the argument of the complex point
`(x, y)`. -/
noncomputable def atan2R (y x : ℝ) : ℝ := Complex.arg ⟨x, y⟩

/-- Python `round(x, 2)` over `ℝ` (the float-specific tie-breaking never
matters for the proved properties). -/
noncomputable def round2R (x : ℝ) : ℝ := (round (100 * x) : ℤ) / 100

/-- `settings.EARTH_RADIUS_KM`. -/
def EARTH_RADIUS_KM : ℝ := 6371

/-- `GeoUtils.calculate_distance` (geo_utils.py lines 67-102) over `ℝ`: the
haversine formula, with the result rounded to two decimals.  This is the
idealised real-valued model of the float computation. -/
noncomputable def calculate_distanceR (lat1 lon1 lat2 lon2 : ℝ) : ℝ :=
  let lat1_rad := radiansR lat1
  let lon1_rad := radiansR lon1
  let lat2_rad := radiansR lat2
  let lon2_rad := radiansR lon2
  let dlat := lat2_rad - lat1_rad
  let dlon := lon2_rad - lon1_rad
  let a := Real.sin (dlat / 2) ^ 2 +
    Real.cos lat1_rad * Real.cos lat2_rad * Real.sin (dlon / 2) ^ 2
  let c := 2 * atan2R (Real.sqrt a) (Real.sqrt (1 - a))
  round2R (EARTH_RADIUS_KM * c)

/-- Follows the spec's words, for comparison with `extract_coordinates`
(not a translation of the code): probe the field list in order and return
the parsed value of the first field whose value parses as a *finite* float;
`none` when no field does. -/
def firstFiniteFloat (rec : Record) : List String → Option PyFloat
  | [] => none
  | f :: fs =>
    match fieldParse rec f with
    | some (.finite q) => some (.finite q)
    | _ => firstFiniteFloat rec fs

/-- Follows the spec's words for `extractCoordinates`, for comparison with
`extract_coordinates`. -/
def extract_coordinates_specFinite (g : GeoUtils) (rec : Record) :
    Option PyFloat × Option PyFloat :=
  (firstFiniteFloat rec g.latitude_fields, firstFiniteFloat rec g.longitude_fields)

/-- The shape of `normalize_city_name` output: every character is fixed by
lowercasing and NFD, non-combining, and a word character or a space; no two
adjacent whitespace characters; no leading or trailing whitespace. -/
def CanonicalNorm (l : List Char) : Prop :=
  (∀ c ∈ l, pyLower c = c ∧ decompChar c = none ∧ isCombining c = false ∧
    (isWordChar c = true ∨ c = ' ')) ∧
  l.Chain' (fun a b => isPySpace a = false ∨ isPySpace b = false) ∧
  (∀ c, l.head? = some c → isPySpace c = false) ∧
  (∀ c, l.getLast? = some c → isPySpace c = false)

theorem lookup_dictInsert_self (k : String) (v : α) :
    ∀ m : List (String × α), (dictInsert k v m).lookup k = some v := by
  intro m
  induction m with
  | nil => simp [dictInsert, List.lookup]
  | cons h t ih =>
    obtain ⟨k', v'⟩ := h
    by_cases hk : k' = k
    · subst hk
      simp [dictInsert, List.lookup]
    · have hb : (k == k') = false := by
        simp [beq_eq_false_iff_ne, Ne.symm hk]
      simp [dictInsert, hk, List.lookup, ih, hb]

theorem mem_dictInsert (k : String) (v : α) (m : List (String × α)) :
    ∀ p, p ∈ dictInsert k v m → p = (k, v) ∨ p ∈ m := by
  induction m with
  | nil => simp [dictInsert]
  | cons h t ih =>
    obtain ⟨k', v'⟩ := h
    intro p hp
    by_cases hk : k' = k
    · subst hk
      simp [dictInsert] at hp
      rcases hp with hp | hp
      · exact Or.inl (by simp [hp])
      · exact Or.inr (by simp [hp])
    · simp [dictInsert, hk] at hp
      rcases hp with hp | hp
      · exact Or.inr (by simp [hp])
      · rcases ih p hp with h' | h'
        · exact Or.inl h'
        · exact Or.inr (by simp [h'])

/-- C5: for every category, year and metadata mapping, after
`mark_file_processed(category, year, metadata)` the query
`is_file_processed(category, year)` returns `true`, and it still returns
`true` after the ledger is saved to its persisted form and reloaded. -/
theorem markFile_isFile_roundtrip (st : CacheData) (c : String) (y : Int)
    (info : List (String × String)) (now : Timestamp) :
    is_file_processed (mark_file_processed st c y info now) c y = true ∧
    is_file_processed
      (load_cache (save_cache (mark_file_processed st c y info now))) c y = true := by
  constructor <;>
    simp [is_file_processed, mark_file_processed, load_cache, save_cache,
      lookup_dictInsert_self]

/-- C10: the underscore-joined city keys are not injective: the distinct
triples `("a_2", 3, "c")` and `("a", 2, "3_c")` share the key `"a_2_3_c"`,
so marking the first makes `is_city_processed` answer `true` for the second,
never-marked triple. -/
theorem cityKey_not_injective :
    (("a_2", (3 : Int), "c") ≠ (("a" : String), (2 : Int), ("3_c" : String))) ∧
    cityKey "a_2" 3 "c" = cityKey "a" 2 "3_c" ∧
    is_city_processed
      (mark_city_processed (emptyCache ⟨2025, "t0"⟩) "a_2" 3 "c" [] ⟨2025, "t1"⟩)
      "a" 2 "3_c" = true := by
  refine ⟨by decide, by decide, by decide⟩

/-- The per-entry invariant C9 is about: a `processed_files` binding carries
its own category/year key and a marking time at which `validate_year`
succeeded. -/
def fileEntryValidated (k : String) (e : FileEntry) : Prop :=
  k = fileKey e.category e.year ∧ validate_year e.year e.processed_at.year = true

theorem runOps_fileEntries_validated (ops : List LedgerOp) :
    ∀ st : CacheData,
      (∀ op ∈ ops, gatedOp op = true) →
      (∀ k e, (k, e) ∈ st.processed_files → fileEntryValidated k e) →
      ∀ k e, (k, e) ∈ (runOps st ops).processed_files → fileEntryValidated k e := by
  induction ops with
  | nil => intro st _ hst; exact hst
  | cons op rest ih =>
    intro st hops hst
    have hop : gatedOp op = true := hops op (List.mem_cons_self op rest)
    have hrest : ∀ o ∈ rest, gatedOp o = true := fun o ho =>
      hops o (List.mem_cons_of_mem op ho)
    refine ih (applyOp st op) hrest ?_
    intro k e hke
    cases op with
    | markFile c y info t =>
      simp only [applyOp, mark_file_processed] at hke
      rcases mem_dictInsert _ _ _ _ hke with h | h
      · have hk : k = fileKey c y := congrArg Prod.fst h
        have he : e = ⟨c, y, t, info⟩ := congrArg Prod.snd h
        subst he
        exact ⟨hk, by simpa [gatedOp] using hop⟩
      · exact hst k e h
    | markCity c y city info t =>
      exact hst k e (by simpa [applyOp, mark_city_processed] using hke)
    | addYear y t =>
      exact hst k e (by simpa [applyOp, add_available_year] using hke)
    | clear t =>
      simp [applyOp, clear_cache, emptyCache] at hke

/-- C9 (amended): `CacheManager` itself never calls `validate_year`, so the
invariant holds only under the caller discipline of `scrape_category`: in
every state reached from the empty ledger by a sequence of operations whose
`markFile` steps each pass `validate_year` at their own timestamp, every key
of `processed_files` names a category/year that was validated as non-future
at the time of marking. -/
theorem gated_ledger_validated (ops : List LedgerOp) (t0 : Timestamp)
    (h : ∀ op ∈ ops, gatedOp op = true) :
    ∀ k e, (k, e) ∈ (runOps (emptyCache t0) ops).processed_files →
      k = fileKey e.category e.year ∧
        validate_year e.year e.processed_at.year = true := by
  intro k e hke
  exact runOps_fileEntries_validated ops (emptyCache t0) h
    (by intro k' e' h'; simp [emptyCache] at h') k e hke

/-- Witness for C9 (amended) at a concrete gated trace. -/
theorem gated_ledger_validated_witness :
    (∀ op ∈ [LedgerOp.markFile "dados_criminais" 2023 [] ⟨2025, "t1"⟩],
        gatedOp op = true) ∧
    (∀ k e,
      (k, e) ∈ (runOps (emptyCache ⟨2025, "t0"⟩)
          [LedgerOp.markFile "dados_criminais" 2023 [] ⟨2025, "t1"⟩]).processed_files →
        k = fileKey e.category e.year ∧
          validate_year e.year e.processed_at.year = true) :=
  ⟨by decide, gated_ledger_validated _ ⟨2025, "t0"⟩ (by decide)⟩

/-- Counterexample to C9 as stated: through the ledger's own operations one
reaches a state whose `processed_files` contains the key of a future year
that `validate_year` rejected at the very moment of marking —
`mark_file_processed` performs no validation. -/
theorem ledger_allows_unvalidated_mark :
    is_file_processed
      (runOps (emptyCache ⟨2025, "t0"⟩)
        [LedgerOp.markFile "dados_criminais" 3000 [] ⟨2025, "t1"⟩])
      "dados_criminais" 3000 = true ∧
    validate_year 3000 2025 = false := by
  refine ⟨by decide, by decide⟩

theorem parseParts_none_iff (parts : List (List Char)) :
    parseParts parts = none ↔
      (parts.length < 2 ∨
        pyFloatOfChars (stripWs (parts.headD [])) = none ∨
        pyFloatOfChars (stripWs (parts.getD 1 [])) = none) := by
  match parts with
  | [] =>
    cases h : pyFloatOfChars (stripWs ([] : List Char)) <;>
      simp [parseParts, h]
  | [a] =>
    cases h : pyFloatOfChars (stripWs a) <;> simp [parseParts, h]
  | a :: b :: t =>
    cases h0 : pyFloatOfChars (stripWs a) <;>
      cases h1 : pyFloatOfChars (stripWs b) <;>
        simp [parseParts, h0, h1, List.getD]

theorem formatParts_true_parseParts_some (parts : List (List Char))
    (h : formatParts parts = true) : parseParts parts ≠ none := by
  match parts with
  | [] => simp [formatParts] at h
  | [a] => simp [formatParts] at h
  | [a, b] =>
    cases h0 : pyFloatOfChars (stripWs a) <;>
      cases h1 : pyFloatOfChars (stripWs b) <;>
        simp [formatParts, h0, h1] at h <;>
          simp [parseParts, h0, h1, List.getD]
  | a :: b :: c :: t => simp [formatParts] at h

/-- C3 (amended): `parse_coordinates` fails exactly when the comma-split of
the trimmed string has no second part or one of the first two parts does not
parse as a float; it checks neither the geographic bounds nor that there are
exactly two parts, so it can succeed where `is_coordinate_format` is
`false` — but a string accepted by `is_coordinate_format` always parses. -/
theorem parse_coordinates_failure_characterization (s : String) :
    (parse_coordinates s = none ↔
      ((splitOnChar ',' (stripWs s.data)).length < 2 ∨
        pyFloatOfChars
          (stripWs ((splitOnChar ',' (stripWs s.data)).headD [])) = none ∨
        pyFloatOfChars
          (stripWs ((splitOnChar ',' (stripWs s.data)).getD 1 [])) = none)) ∧
    (is_coordinate_format s = true → parse_coordinates s ≠ none) := by
  constructor
  · exact parseParts_none_iff (splitOnChar ',' (stripWs s.data))
  · intro hfmt
    unfold is_coordinate_format at hfmt
    by_cases hc : (stripWs s.data).contains ','
    · simp only [hc, Bool.not_true, if_false] at hfmt
      exact formatParts_true_parseParts_some _ hfmt
    · have hcf : (stripWs s.data).contains ',' = false :=
        Bool.eq_false_iff.mpr hc
      simp only [hcf] at hfmt
      simp at hfmt

/-- Witness for C3 (amended) at the concrete input `"10, 20"`. -/
theorem parse_coordinates_characterization_witness :
    (parse_coordinates "10, 20" = none ↔
      ((splitOnChar ',' (stripWs "10, 20".data)).length < 2 ∨
        pyFloatOfChars
          (stripWs ((splitOnChar ',' (stripWs "10, 20".data)).headD [])) = none ∨
        pyFloatOfChars
          (stripWs ((splitOnChar ',' (stripWs "10, 20".data)).getD 1 [])) = none)) ∧
    (is_coordinate_format "10, 20" = true → parse_coordinates "10, 20" ≠ none) :=
  parse_coordinates_failure_characterization "10, 20"

/-- Counterexample to C3 as stated: `"91,0"` fails `is_coordinate_format`
(latitude out of bounds) yet `parse_coordinates` does not raise — it returns
`(91.0, 0.0)` — so raising is not equivalent to the format check being
false. -/
theorem parse_succeeds_where_format_fails :
    is_coordinate_format "91,0" = false ∧
    parse_coordinates "91,0" = some (.finite 91, .finite 0) :=
  ⟨by decide, by decide⟩

theorem firstFloat_eq_none_iff (rec : Record) (fields : List String) :
    firstFloat rec fields = none ↔ ∀ f ∈ fields, fieldParse rec f = none := by
  induction fields with
  | nil => simp [firstFloat]
  | cons f fs ih =>
    cases h : fieldParse rec f with
    | some x => simp [firstFloat, h]
    | none => simp [firstFloat, h, ih]

theorem firstFloat_eq_some_iff (rec : Record) (fields : List String)
    (x : PyFloat) :
    firstFloat rec fields = some x ↔
      ∃ pre f post, fields = pre ++ f :: post ∧
        (∀ f' ∈ pre, fieldParse rec f' = none) ∧
        fieldParse rec f = some x := by
  induction fields with
  | nil => simp [firstFloat]
  | cons g gs ih =>
    cases h : fieldParse rec g with
    | some y =>
      simp only [firstFloat, h]
      constructor
      · intro hx
        exact ⟨[], g, gs, rfl, by simp, by simp [h, hx]⟩
      · rintro ⟨pre, f, post, hsplit, hpre, hf⟩
        cases pre with
        | nil =>
          simp at hsplit
          rw [hsplit.1] at h
          rw [h] at hf
          exact hf
        | cons p ps =>
          simp at hsplit
          have : fieldParse rec g = none := by
            rw [hsplit.1] at h ⊢
            exact hpre p (by simp)
          rw [this] at h
          exact Option.noConfusion h
    | none =>
      simp only [firstFloat, h, ih]
      constructor
      · rintro ⟨pre, f, post, hsplit, hpre, hf⟩
        refine ⟨g :: pre, f, post, by simp [hsplit], ?_, hf⟩
        intro f' hf'
        rcases List.mem_cons.mp hf' with rfl | hf'
        · exact h
        · exact hpre f' hf'
      · rintro ⟨pre, f, post, hsplit, hpre, hf⟩
        cases pre with
        | nil =>
          simp at hsplit
          rw [hsplit.1] at h
          rw [h] at hf
          exact Option.noConfusion hf
        | cons p ps =>
          simp at hsplit
          refine ⟨ps, f, post, hsplit.2, ?_, hf⟩
          intro f' hf'
          exact hpre f' (by simp [hf'])

/-- C4 (amended): for latitude and longitude independently,
`extract_coordinates` returns the parsed value of the first field in the
configured priority list whose value parses as a float — with no finiteness
check, so a value parsing to `inf` or `nan` is returned as parsed — and
`None` for that coordinate exactly when no listed field parses. -/
theorem extract_coordinates_first_parsing_field (g : GeoUtils) (rec : Record) :
    (∀ x, (extract_coordinates g rec).1 = some x ↔
      ∃ pre f post, g.latitude_fields = pre ++ f :: post ∧
        (∀ f' ∈ pre, fieldParse rec f' = none) ∧
        fieldParse rec f = some x) ∧
    ((extract_coordinates g rec).1 = none ↔
      ∀ f ∈ g.latitude_fields, fieldParse rec f = none) ∧
    (∀ x, (extract_coordinates g rec).2 = some x ↔
      ∃ pre f post, g.longitude_fields = pre ++ f :: post ∧
        (∀ f' ∈ pre, fieldParse rec f' = none) ∧
        fieldParse rec f = some x) ∧
    ((extract_coordinates g rec).2 = none ↔
      ∀ f ∈ g.longitude_fields, fieldParse rec f = none) :=
  ⟨fun x => firstFloat_eq_some_iff rec g.latitude_fields x,
    firstFloat_eq_none_iff rec g.latitude_fields,
    fun x => firstFloat_eq_some_iff rec g.longitude_fields x,
    firstFloat_eq_none_iff rec g.longitude_fields⟩

/-- Witness for C4 (amended) at a concrete instance. -/
theorem extract_coordinates_first_parsing_field_witness :
    (∀ x, (extract_coordinates (mkGeoUtils (fun _ _ _ _ => .finite 0))
        [("lat", ⟨"5", some (.finite 5)⟩)]).1 = some x ↔
      ∃ pre f post,
        (mkGeoUtils (fun _ _ _ _ => .finite 0)).latitude_fields =
          pre ++ f :: post ∧
        (∀ f' ∈ pre, fieldParse [("lat", ⟨"5", some (.finite 5)⟩)] f' = none) ∧
        fieldParse [("lat", ⟨"5", some (.finite 5)⟩)] f = some x) ∧
    ((extract_coordinates (mkGeoUtils (fun _ _ _ _ => .finite 0))
        [("lat", ⟨"5", some (.finite 5)⟩)]).1 = none ↔
      ∀ f ∈ (mkGeoUtils (fun _ _ _ _ => .finite 0)).latitude_fields,
        fieldParse [("lat", ⟨"5", some (.finite 5)⟩)] f = none) ∧
    (∀ x, (extract_coordinates (mkGeoUtils (fun _ _ _ _ => .finite 0))
        [("lat", ⟨"5", some (.finite 5)⟩)]).2 = some x ↔
      ∃ pre f post,
        (mkGeoUtils (fun _ _ _ _ => .finite 0)).longitude_fields =
          pre ++ f :: post ∧
        (∀ f' ∈ pre, fieldParse [("lat", ⟨"5", some (.finite 5)⟩)] f' = none) ∧
        fieldParse [("lat", ⟨"5", some (.finite 5)⟩)] f = some x) ∧
    ((extract_coordinates (mkGeoUtils (fun _ _ _ _ => .finite 0))
        [("lat", ⟨"5", some (.finite 5)⟩)]).2 = none ↔
      ∀ f ∈ (mkGeoUtils (fun _ _ _ _ => .finite 0)).longitude_fields,
        fieldParse [("lat", ⟨"5", some (.finite 5)⟩)] f = none) :=
  extract_coordinates_first_parsing_field (mkGeoUtils (fun _ _ _ _ => .finite 0))
    [("lat", ⟨"5", some (.finite 5)⟩)]

/-- Counterexample to C4 as stated: on a record whose `latitude` field holds
the string `"inf"` — which `float()` parses to the non-finite `inf` — and
whose `lat` field parses to the finite `5.0`, the code returns `inf` (the
first field that parses at all), not the first field that parses as a
*finite* float as the spec-reading `extract_coordinates_specFinite`
prescribes. -/
theorem extract_coordinates_accepts_inf :
    pyFloatOfString "inf" = some (.inf true) ∧
    pyFloatOfString "5" = some (.finite 5) ∧
    extract_coordinates (mkGeoUtils (fun _ _ _ _ => .finite 0))
        [("latitude", ⟨"inf", some (.inf true)⟩), ("lat", ⟨"5", some (.finite 5)⟩)] =
      (some (.inf true), none) ∧
    extract_coordinates_specFinite (mkGeoUtils (fun _ _ _ _ => .finite 0))
        [("latitude", ⟨"inf", some (.inf true)⟩), ("lat", ⟨"5", some (.finite 5)⟩)] =
      (some (.finite 5), none) :=
  ⟨by decide, by decide, by decide, by decide⟩

theorem pyLe_left_ne_nan {a b : PyFloat} (h : pyLe a b = true) : a ≠ .nan := by
  intro ha
  subst ha
  simp [pyLe] at h

theorem pyLe_refl {a : PyFloat} (ha : a ≠ .nan) : pyLe a a = true := by
  cases a with
  | finite q => simp [pyLe]
  | inf p => cases p <;> simp [pyLe]
  | nan => exact absurd rfl ha

theorem pyLe_total {a b : PyFloat} (ha : a ≠ .nan) (hb : b ≠ .nan) :
    pyLe a b = true ∨ pyLe b a = true := by
  cases a with
  | nan => exact absurd rfl ha
  | finite qa =>
    cases b with
    | nan => exact absurd rfl hb
    | finite qb =>
      simp only [pyLe, decide_eq_true_eq]
      exact le_total qa qb
    | inf p => cases p <;> simp [pyLe]
  | inf pa =>
    cases b with
    | nan => exact absurd rfl hb
    | finite qb => cases pa <;> simp [pyLe]
    | inf pb => cases pa <;> cases pb <;> simp [pyLe]

theorem pyLe_trans {a b c : PyFloat} (h1 : pyLe a b = true)
    (h2 : pyLe b c = true) : pyLe a c = true := by
  cases a <;> cases b <;> cases c <;>
    simp_all only [pyLe, Bool.or_eq_true, Bool.not_eq_true', decide_eq_true_eq] <;>
    first
    | rfl
    | exact le_trans h1 h2
    | (rename_i p q r; cases p <;> cases q <;> cases r <;> simp_all)
    | (rename_i p q; cases p <;> cases q <;> simp_all)

theorem insertByDist_perm (x : RecordWithDistance) :
    ∀ l : List RecordWithDistance, List.Perm (insertByDist x l) (x :: l) := by
  intro l
  induction l with
  | nil => rfl
  | cons y ys ih =>
    by_cases h : pyLe x.distancia_km y.distancia_km
    · simp [insertByDist, h]
    · simp only [insertByDist, h, if_false]
      exact (ih.cons y).trans (List.Perm.swap x y ys)

theorem insertByDist_pairwise (x : RecordWithDistance)
    (l : List RecordWithDistance)
    (hx : x.distancia_km ≠ .nan)
    (hl : ∀ y ∈ l, y.distancia_km ≠ .nan)
    (h : l.Pairwise (fun a b => pyLe a.distancia_km b.distancia_km = true)) :
    (insertByDist x l).Pairwise
      (fun a b => pyLe a.distancia_km b.distancia_km = true) := by
  induction l with
  | nil => simp [insertByDist]
  | cons y ys ih =>
    rcases List.pairwise_cons.mp h with ⟨hy, hys⟩
    by_cases hle : pyLe x.distancia_km y.distancia_km
    · simp only [insertByDist, hle, if_true]
      refine List.pairwise_cons.mpr ⟨?_, h⟩
      intro b hb
      rcases List.mem_cons.mp hb with rfl | hb
      · exact hle
      · exact pyLe_trans hle (hy b hb)
    · simp only [insertByDist, hle, if_false]
      refine List.pairwise_cons.mpr ⟨?_, ?_⟩
      · intro b hb
        rcases List.mem_cons.mp ((insertByDist_perm x ys).mem_iff.mp hb) with rfl | hb
        · rcases pyLe_total hx (hl y (by simp)) with h' | h'
          · exact absurd h' hle
          · exact h'
        · exact hy b hb
      · exact ih (fun z hz => hl z (by simp [hz])) hys

theorem insertByDist_filter_key (x : RecordWithDistance)
    (l : List RecordWithDistance) (d : PyFloat)
    (hx : x.distancia_km ≠ .nan) :
    (insertByDist x l).filter (fun r => r.distancia_km == d) =
      if x.distancia_km == d then
        x :: l.filter (fun r => r.distancia_km == d)
      else l.filter (fun r => r.distancia_km == d) := by
  induction l with
  | nil =>
    by_cases hd : x.distancia_km == d <;> simp [insertByDist, hd, List.filter]
  | cons y ys ih =>
    by_cases hle : pyLe x.distancia_km y.distancia_km
    · by_cases hd : x.distancia_km == d <;>
        simp [insertByDist, hle, List.filter_cons, hd]
    · simp only [insertByDist, hle, if_false, List.filter_cons]
      by_cases hd : x.distancia_km == d
      · have hyd : (y.distancia_km == d) = false := by
          by_contra hyd
          have h1 : y.distancia_km = d := by
            have := Bool.of_not_eq_false hyd
            exact beq_iff_eq.mp this
          have h2 : x.distancia_km = d := beq_iff_eq.mp hd
          rw [h1, ← h2] at hle
          exact hle (pyLe_refl hx)
        simp [hyd, ih, hd]
      · by_cases hyd : y.distancia_km == d <;> simp [hyd, ih, hd]

theorem sortByDist_perm :
    ∀ l : List RecordWithDistance, List.Perm (sortByDist l) l := by
  intro l
  induction l with
  | nil => rfl
  | cons x xs ih => exact (insertByDist_perm x (sortByDist xs)).trans (ih.cons x)

theorem sortByDist_pairwise (l : List RecordWithDistance)
    (hl : ∀ y ∈ l, y.distancia_km ≠ .nan) :
    (sortByDist l).Pairwise
      (fun a b => pyLe a.distancia_km b.distancia_km = true) := by
  induction l with
  | nil => simp [sortByDist]
  | cons x xs ih =>
    refine insertByDist_pairwise x (sortByDist xs) (hl x (by simp)) ?_ ?_
    · intro y hy
      exact hl y (by simp [(sortByDist_perm xs).mem_iff.mp hy])
    · exact ih (fun z hz => hl z (by simp [hz]))

theorem sortByDist_filter_key (l : List RecordWithDistance) (d : PyFloat)
    (hl : ∀ y ∈ l, y.distancia_km ≠ .nan) :
    (sortByDist l).filter (fun r => r.distancia_km == d) =
      l.filter (fun r => r.distancia_km == d) := by
  induction l with
  | nil => rfl
  | cons x xs ih =>
    have hx : x.distancia_km ≠ .nan := hl x (by simp)
    have ih' := ih (fun z hz => hl z (by simp [hz]))
    simp only [sortByDist, insertByDist_filter_key x (sortByDist xs) d hx, ih',
      List.filter_cons]

theorem mem_radiusCandidates_props {g : GeoUtils}
    {center_lat center_lon radius_km : PyFloat} {all_data : List DataGroup}
    {e : RecordWithDistance}
    (he : e ∈ radiusCandidates g center_lat center_lon radius_km all_data) :
    pyLe e.distancia_km radius_km = true ∧
      pyTruthy e.latitude = true ∧ pyTruthy e.longitude = true := by
  simp only [radiusCandidates, List.mem_flatMap, List.mem_filterMap] at he
  obtain ⟨data, _, record, _, heq⟩ := he
  split at heq
  · rename_i lat lon _
    split at heq
    · rename_i htruthy
      split at heq
      · rename_i hle
        cases heq
        exact ⟨hle, (Bool.and_eq_true _ _).mp htruthy⟩
      · exact Option.noConfusion heq
    · exact Option.noConfusion heq
  · exact Option.noConfusion heq

theorem radiusCandidates_mem_of (g : GeoUtils)
    (center_lat center_lon radius_km : PyFloat) {all_data : List DataGroup}
    {grp : DataGroup} {rec : Record} {lat lon : PyFloat}
    (hg : grp ∈ all_data) (hr : rec ∈ grp.dados)
    (hex : extract_coordinates g rec = (some lat, some lon))
    (htl : pyTruthy lat = true) (htn : pyTruthy lon = true)
    (hd : pyLe (g.calculate_distance center_lat center_lon lat lon)
      radius_km = true) :
    (⟨grp.categoria, lat, lon,
        g.calculate_distance center_lat center_lon lat lon, rec⟩ :
      RecordWithDistance) ∈
      radiusCandidates g center_lat center_lon radius_km all_data := by
  simp only [radiusCandidates, List.mem_flatMap, List.mem_filterMap]
  refine ⟨grp, hg, rec, hr, ?_⟩
  rw [hex]
  simp [htl, htn, hd]

theorem search_by_street_truthy {g : GeoUtils} {street_name : String}
    {all_data : List DataGroup} {res : PyFloat × PyFloat}
    (h : search_by_street g street_name all_data = some res) :
    pyTruthy res.1 = true ∧ pyTruthy res.2 = true := by
  unfold search_by_street at h
  obtain ⟨data, _, h2⟩ := List.exists_of_findSome?_eq_some h
  obtain ⟨rec, _, h3⟩ := List.exists_of_findSome?_eq_some h2
  unfold searchRecord at h3
  obtain ⟨field, _, h4⟩ := List.exists_of_findSome?_eq_some h3
  split at h4
  · exact Option.noConfusion h4
  · split at h4
    · split at h4
      · rename_i lat lon _
        split at h4
        · rename_i ht
          cases h4
          exact (Bool.and_eq_true _ _).mp ht
        · exact Option.noConfusion h4
      · exact Option.noConfusion h4
    · exact Option.noConfusion h4

/-- C1: for every distance function, centre, radius and record-group list,
the result of `find_records_in_radius` is sorted non-decreasingly by
`distancia_km`, every returned entry satisfies
`distancia_km <= radius_km` (in Python float comparison), and for every
distance value the entries carrying it appear exactly as in the pre-sort
candidate list, i.e. ties keep their relative input order (stable sort). -/
theorem find_records_in_radius_sorted_bounded_stable (g : GeoUtils)
    (center_lat center_lon radius_km : PyFloat) (all_data : List DataGroup) :
    (find_records_in_radius g center_lat center_lon radius_km
        all_data).Pairwise
      (fun a b => pyLe a.distancia_km b.distancia_km = true) ∧
    (∀ e ∈ find_records_in_radius g center_lat center_lon radius_km all_data,
      pyLe e.distancia_km radius_km = true) ∧
    (∀ d, (find_records_in_radius g center_lat center_lon radius_km
        all_data).filter (fun e => e.distancia_km == d) =
      (radiusCandidates g center_lat center_lon radius_km all_data).filter
        (fun e => e.distancia_km == d)) := by
  have hnn : ∀ e ∈ radiusCandidates g center_lat center_lon radius_km
      all_data, e.distancia_km ≠ .nan := by
    intro e he
    exact pyLe_left_ne_nan (mem_radiusCandidates_props he).1
  refine ⟨sortByDist_pairwise _ hnn, ?_, fun d => sortByDist_filter_key _ d hnn⟩
  intro e he
  have : e ∈ radiusCandidates g center_lat center_lon radius_km all_data :=
    (sortByDist_perm _).mem_iff.mp he
  exact (mem_radiusCandidates_props this).1

/-- C2 (amended): the records excluded for coordinate reasons are those
lacking a parseable latitude or longitude *or whose parsed latitude or
longitude is the Python-falsy `0.0`* (the guard is `if lat and lon:`, a
truthiness test).  Every record whose two coordinates parse to truthy values
and whose distance is within the radius yields an entry of
`find_records_in_radius`; every returned entry has truthy coordinates; and
`search_by_street` only ever returns truthy coordinates. -/
theorem truthy_coordinate_records_included (g : GeoUtils)
    (center_lat center_lon radius_km : PyFloat) (all_data : List DataGroup)
    (grp : DataGroup) (rec : Record) (lat lon : PyFloat)
    (hg : grp ∈ all_data) (hr : rec ∈ grp.dados)
    (hex : extract_coordinates g rec = (some lat, some lon))
    (htl : pyTruthy lat = true) (htn : pyTruthy lon = true)
    (hd : pyLe (g.calculate_distance center_lat center_lon lat lon)
      radius_km = true) :
    (∃ e ∈ find_records_in_radius g center_lat center_lon radius_km all_data,
      e.dados_originais = rec ∧ e.latitude = lat ∧ e.longitude = lon) ∧
    (∀ e ∈ find_records_in_radius g center_lat center_lon radius_km all_data,
      pyTruthy e.latitude = true ∧ pyTruthy e.longitude = true) ∧
    (∀ street res, search_by_street g street all_data = some res →
      pyTruthy res.1 = true ∧ pyTruthy res.2 = true) := by
  refine ⟨?_, ?_, fun street res h => search_by_street_truthy h⟩
  · refine ⟨⟨grp.categoria, lat, lon,
      g.calculate_distance center_lat center_lon lat lon, rec⟩, ?_, rfl, rfl, rfl⟩
    exact (sortByDist_perm _).mem_iff.mpr
      (radiusCandidates_mem_of g center_lat center_lon radius_km hg hr hex
        htl htn hd)
  · intro e he
    exact (mem_radiusCandidates_props ((sortByDist_perm _).mem_iff.mp he)).2

/-- Witness for C2 (amended) at a concrete instance: a record at
`(1.0, 10.0)` with constant distance `0` and radius `5`. -/
theorem truthy_coordinate_records_included_witness :
    (∃ e ∈ find_records_in_radius (mkGeoUtils (fun _ _ _ _ => .finite 0))
        (.finite 0) (.finite 10) (.finite 5)
        [⟨"dados_criminais",
          [[("latitude", ⟨"1.0", some (.finite 1)⟩),
            ("longitude", ⟨"10.0", some (.finite 10)⟩)]]⟩],
      e.dados_originais =
          [("latitude", ⟨"1.0", some (.finite 1)⟩),
            ("longitude", ⟨"10.0", some (.finite 10)⟩)] ∧
        e.latitude = .finite 1 ∧ e.longitude = .finite 10) ∧
    (∀ e ∈ find_records_in_radius (mkGeoUtils (fun _ _ _ _ => .finite 0))
        (.finite 0) (.finite 10) (.finite 5)
        [⟨"dados_criminais",
          [[("latitude", ⟨"1.0", some (.finite 1)⟩),
            ("longitude", ⟨"10.0", some (.finite 10)⟩)]]⟩],
      pyTruthy e.latitude = true ∧ pyTruthy e.longitude = true) ∧
    (∀ street res, search_by_street (mkGeoUtils (fun _ _ _ _ => .finite 0))
        street
        [⟨"dados_criminais",
          [[("latitude", ⟨"1.0", some (.finite 1)⟩),
            ("longitude", ⟨"10.0", some (.finite 10)⟩)]]⟩] = some res →
      pyTruthy res.1 = true ∧ pyTruthy res.2 = true) :=
  truthy_coordinate_records_included (mkGeoUtils (fun _ _ _ _ => .finite 0))
    (.finite 0) (.finite 10) (.finite 5)
    [⟨"dados_criminais",
      [[("latitude", ⟨"1.0", some (.finite 1)⟩),
        ("longitude", ⟨"10.0", some (.finite 10)⟩)]]⟩]
    ⟨"dados_criminais",
      [[("latitude", ⟨"1.0", some (.finite 1)⟩),
        ("longitude", ⟨"10.0", some (.finite 10)⟩)]]⟩
    [("latitude", ⟨"1.0", some (.finite 1)⟩),
      ("longitude", ⟨"10.0", some (.finite 10)⟩)]
    (.finite 1) (.finite 10)
    (by decide) (by decide) (by decide) (by decide) (by decide) (by decide)

/-- Counterexample to C2 as stated: a record whose latitude field parses to
`0.0` and whose longitude parses to `10.0` — both parseable, latitude the
legitimate coordinate `0.0` — is silently dropped by
`find_records_in_radius` (for any radius accepted here, with the distance
function constantly `0`, the single candidate would trivially be in range)
and is invisible to `search_by_street` despite its matching address. -/
theorem zero_coordinate_record_excluded :
    extract_coordinates (mkGeoUtils (fun _ _ _ _ => .finite 0))
        [("endereco", ⟨"rua abc", none⟩),
          ("latitude", ⟨"0.0", some (.finite 0)⟩),
          ("longitude", ⟨"10.0", some (.finite 10)⟩)] =
      (some (.finite 0), some (.finite 10)) ∧
    pyLe ((fun (_ _ _ _ : PyFloat) => PyFloat.finite 0) (.finite 0)
      (.finite 10) (.finite 0) (.finite 10)) (.finite 5) = true ∧
    find_records_in_radius (mkGeoUtils (fun _ _ _ _ => .finite 0))
        (.finite 0) (.finite 10) (.finite 5)
        [⟨"dados_criminais",
          [[("endereco", ⟨"rua abc", none⟩),
            ("latitude", ⟨"0.0", some (.finite 0)⟩),
            ("longitude", ⟨"10.0", some (.finite 10)⟩)]]⟩] = [] ∧
    search_by_street (mkGeoUtils (fun _ _ _ _ => .finite 0)) "rua"
        [⟨"dados_criminais",
          [[("endereco", ⟨"rua abc", none⟩),
            ("latitude", ⟨"0.0", some (.finite 0)⟩),
            ("longitude", ⟨"10.0", some (.finite 10)⟩)]]⟩] = none :=
  ⟨by decide, by decide, by decide, by decide⟩

theorem atan2R_zero_one : atan2R 0 1 = 0 := by
  unfold atan2R
  have h : (⟨1, 0⟩ : ℂ) = 1 := by
    apply Complex.ext <;> simp
  rw [h, Complex.arg_one]

theorem round2R_zero : round2R 0 = 0 := by
  simp [round2R]

theorem sin_sq_sub_symm (x y : ℝ) :
    Real.sin ((x - y) / 2) ^ 2 = Real.sin ((y - x) / 2) ^ 2 := by
  have hx : (x - y) / 2 = -((y - x) / 2) := by ring
  rw [hx, Real.sin_neg]
  ring

/-- C8: the (real-valued) haversine distance returns `0` for coincident
points and is symmetric in its two points. -/
theorem calculate_distanceR_zero_and_symm :
    (∀ lat lon : ℝ, calculate_distanceR lat lon lat lon = 0) ∧
    (∀ lat1 lon1 lat2 lon2 : ℝ,
      calculate_distanceR lat1 lon1 lat2 lon2 =
        calculate_distanceR lat2 lon2 lat1 lon1) := by
  constructor
  · intro lat lon
    simp only [calculate_distanceR, sub_self, zero_div, Real.sin_zero,
      ne_eq, OfNat.ofNat_ne_zero, not_false_eq_true, zero_pow, mul_zero,
      add_zero, Real.sqrt_zero, sub_zero, Real.sqrt_one, atan2R_zero_one,
      round2R_zero]
  · intro lat1 lon1 lat2 lon2
    simp only [calculate_distanceR]
    rw [sin_sq_sub_symm (radiansR lat2) (radiansR lat1),
      sin_sq_sub_symm (radiansR lon2) (radiansR lon1),
      mul_comm (Real.cos (radiansR lat1)) (Real.cos (radiansR lat2))]

theorem mem_of_lookup_eq_some {α β : Type} [BEq α] [LawfulBEq α]
    {l : List (α × β)} {k : α} {v : β} (h : l.lookup k = some v) :
    (k, v) ∈ l := by
  induction l with
  | nil => simp [List.lookup] at h
  | cons p t ih =>
    obtain ⟨k', v'⟩ := p
    simp only [List.lookup] at h
    cases hk : k == k' with
    | true =>
      rw [hk] at h
      simp only [Option.some.injEq] at h
      subst h
      have : k = k' := eq_of_beq hk
      subst this
      exact List.mem_cons_self _ _
    | false =>
      rw [hk] at h
      exact List.mem_cons_of_mem _ (ih h)

theorem pyLower_idem (c : Char) : pyLower (pyLower c) = pyLower c := by
  unfold pyLower
  cases hc : lowerTable.lookup c with
  | none => simp [hc]
  | some d =>
    simp only [hc, Option.getD_some]
    have hall : ∀ p ∈ lowerTable, lowerTable.lookup p.2 = none := by decide
    have hd : lowerTable.lookup d = none :=
      hall (c, d) (mem_of_lookup_eq_some hc)
    simp [hd]

theorem decompChar_props {c b m : Char} (h : decompChar c = some (b, m)) :
    isCombining m = true ∧ pyLower b = b ∧ decompChar b = none ∧
      isWordChar b = true ∧ isPySpace b = false := by
  have hall : ∀ p ∈ decompTable,
      isCombining p.2.2 = true ∧ pyLower p.2.1 = p.2.1 ∧
        decompChar p.2.1 = none ∧ isWordChar p.2.1 = true ∧
        isPySpace p.2.1 = false := by decide
  exact hall (c, (b, m)) (mem_of_lookup_eq_some h)

theorem pipeline_char_fixed {y c : Char} (hc : c ∈ nfdChar (pyLower y))
    (hcomb : isCombining c = false) :
    pyLower c = c ∧ decompChar c = none := by
  unfold nfdChar at hc
  cases hd : decompChar (pyLower y) with
  | none =>
    rw [hd] at hc
    simp at hc
    subst hc
    exact ⟨pyLower_idem y, hd⟩
  | some bm =>
    obtain ⟨b, m⟩ := bm
    rw [hd] at hc
    simp at hc
    rcases hc with rfl | rfl
    · exact ⟨(decompChar_props hd).2.1, (decompChar_props hd).2.2.1⟩
    · rw [(decompChar_props hd).1] at hcomb
      exact Bool.noConfusion hcomb

theorem isWordChar_not_space {c : Char} (h : isWordChar c = true) :
    isPySpace c = false := by
  cases hps : isPySpace c with
  | false => rfl
  | true =>
    exfalso
    simp only [isPySpace, Bool.or_eq_true, beq_iff_eq] at hps
    rcases hps with ((((rfl | rfl) | rfl) | rfl) | rfl) | rfl <;>
      exact absurd h (by decide)

theorem collapseWs_head_nonspace (d : Char) (rest : List Char)
    (hd : isPySpace d = false) : (collapseWs (d :: rest)).head? = some d := by
  cases rest with
  | nil => simp [collapseWs, hd]
  | cons e t => simp [collapseWs, hd]

theorem mem_collapseWs {m : List Char} :
    ∀ c ∈ collapseWs m, c = ' ' ∨ (c ∈ m ∧ isPySpace c = false) := by
  induction m with
  | nil => simp [collapseWs]
  | cons a m' ih =>
    intro c hc
    cases m' with
    | nil =>
      cases ha : isPySpace a with
      | true =>
        simp [collapseWs, ha] at hc
        exact Or.inl hc
      | false =>
        simp [collapseWs, ha] at hc
        subst hc
        exact Or.inr ⟨by simp, ha⟩
    | cons b t =>
      cases ha : isPySpace a with
      | true =>
        cases hb : isPySpace b with
        | true =>
          simp only [collapseWs, ha, hb, if_true] at hc
          rcases ih c hc with h | ⟨hm, hs⟩
          · exact Or.inl h
          · exact Or.inr ⟨List.mem_cons_of_mem _ hm, hs⟩
        | false =>
          simp only [collapseWs, ha, hb, if_true, if_false] at hc
          rcases List.mem_cons.mp hc with rfl | hc
          · exact Or.inl rfl
          · rcases ih c hc with h | ⟨hm, hs⟩
            · exact Or.inl h
            · exact Or.inr ⟨List.mem_cons_of_mem _ hm, hs⟩
      | false =>
        simp only [collapseWs, ha, if_false] at hc
        rcases List.mem_cons.mp hc with rfl | hc
        · exact Or.inr ⟨by simp, ha⟩
        · rcases ih c hc with h | ⟨hm, hs⟩
          · exact Or.inl h
          · exact Or.inr ⟨List.mem_cons_of_mem _ hm, hs⟩

theorem collapseWs_chain' (m : List Char) :
    (collapseWs m).Chain'
      (fun a b => isPySpace a = false ∨ isPySpace b = false) := by
  induction m with
  | nil => simp [collapseWs]
  | cons a m' ih =>
    cases m' with
    | nil =>
      cases ha : isPySpace a <;> simp [collapseWs, ha]
    | cons b t =>
      cases ha : isPySpace a with
      | true =>
        cases hb : isPySpace b with
        | true => simpa [collapseWs, ha, hb] using ih
        | false =>
          simp only [collapseWs, ha, hb, if_true, if_false]
          refine List.chain'_cons'.mpr ⟨?_, ih⟩
          intro y hy
          rw [collapseWs_head_nonspace b t hb] at hy
          simp at hy
          subst hy
          exact Or.inr hb
      | false =>
        simp only [collapseWs, ha, if_false]
        refine List.chain'_cons'.mpr ⟨?_, ih⟩
        intro y _
        exact Or.inl ha

theorem head?_dropWhile_not (p : Char → Bool) (l : List Char) :
    ∀ c, (l.dropWhile p).head? = some c → p c = false := by
  induction l with
  | nil => simp
  | cons a t ih =>
    intro c hc
    cases ha : p a with
    | true =>
      rw [List.dropWhile_cons] at hc
      rw [ha] at hc
      simp only [if_true] at hc
      exact ih c hc
    | false =>
      rw [List.dropWhile_cons] at hc
      rw [ha] at hc
      simp only [Bool.false_eq_true, if_false, List.head?_cons,
        Option.some.injEq] at hc
      subst hc
      exact ha

theorem stripWs_prefix_dropWhile (l : List Char) :
    stripWs l <+: l.dropWhile isPySpace := by
  have h := List.reverse_prefix.mpr
    (List.dropWhile_suffix (l := (l.dropWhile isPySpace).reverse) isPySpace)
  rw [List.reverse_reverse] at h
  exact h

theorem stripWs_part (l : List Char) : stripWs l <:+: l := by
  obtain ⟨t, ht⟩ := stripWs_prefix_dropWhile l
  obtain ⟨s, hs⟩ := List.dropWhile_suffix (l := l) isPySpace
  exact ⟨s, t, by rw [List.append_assoc, ht, hs]⟩

theorem stripWs_head_not_space (l : List Char) (c : Char)
    (hc : (stripWs l).head? = some c) : isPySpace c = false := by
  obtain ⟨t, ht⟩ := stripWs_prefix_dropWhile l
  apply head?_dropWhile_not isPySpace l c
  rw [← ht]
  cases hs : stripWs l with
  | nil => rw [hs] at hc; exact Option.noConfusion hc
  | cons a t' =>
    rw [hs] at hc
    simpa using hc

theorem stripWs_getLast_not_space (l : List Char) (c : Char)
    (hc : (stripWs l).getLast? = some c) : isPySpace c = false := by
  unfold stripWs at hc
  rw [← List.head?_reverse, List.reverse_reverse] at hc
  exact head?_dropWhile_not isPySpace _ c hc

theorem map_pyLower_fixed {l : List Char} (h : ∀ c ∈ l, pyLower c = c) :
    l.map pyLower = l := by
  induction l with
  | nil => rfl
  | cons a t ih =>
    simp only [List.map_cons, h a (by simp),
      ih (fun c hc => h c (by simp [hc]))]

theorem flatMap_nfd_fixed {l : List Char} (h : ∀ c ∈ l, decompChar c = none) :
    l.flatMap nfdChar = l := by
  induction l with
  | nil => rfl
  | cons a t ih =>
    have ha : nfdChar a = [a] := by
      unfold nfdChar
      rw [h a (by simp)]
    rw [List.flatMap_cons, ha, ih (fun c hc => h c (by simp [hc]))]
    rfl

theorem collapseWs_fixed {l : List Char}
    (hsp : ∀ c ∈ l, isPySpace c = true → c = ' ')
    (hch : l.Chain' (fun a b => isPySpace a = false ∨ isPySpace b = false)) :
    collapseWs l = l := by
  induction l with
  | nil => rfl
  | cons a m ih =>
    cases m with
    | nil =>
      cases ha : isPySpace a with
      | true =>
        have := hsp a (by simp) ha
        simp [collapseWs, ha, this]
      | false => simp [collapseWs, ha]
    | cons b t =>
      cases ha : isPySpace a with
      | true =>
        cases hb : isPySpace b with
        | true =>
          exfalso
          rcases (List.chain'_cons.mp hch).1 with h' | h' <;> simp_all
        | false =>
          have ha' : a = ' ' := hsp a (by simp) ha
          simp only [collapseWs, ha, hb]
          rw [ih (fun c hc hs => hsp c (by simp [hc]) hs)
            (List.chain'_cons.mp hch).2, ha']
          simp
      | false =>
        simp only [collapseWs, ha]
        rw [ih (fun c hc hs => hsp c (by simp [hc]) hs)
          (List.chain'_cons.mp hch).2]
        simp

theorem dropWhile_eq_self_of_head {l : List Char}
    (h : ∀ c, l.head? = some c → isPySpace c = false) :
    l.dropWhile isPySpace = l := by
  cases l with
  | nil => rfl
  | cons a t => simp [List.dropWhile_cons, h a rfl]

theorem stripWs_fixed {l : List Char}
    (h1 : ∀ c, l.head? = some c → isPySpace c = false)
    (h2 : ∀ c, l.getLast? = some c → isPySpace c = false) :
    stripWs l = l := by
  unfold stripWs
  rw [dropWhile_eq_self_of_head h1]
  rw [dropWhile_eq_self_of_head
    (fun c hc => h2 c (by rwa [List.head?_reverse] at hc))]
  exact List.reverse_reverse l

theorem normalizeL_canonical (l : List Char) : CanonicalNorm (normalizeL l) := by
  refine ⟨?_, ?_, fun c hc => stripWs_head_not_space _ c hc,
    fun c hc => stripWs_getLast_not_space _ c hc⟩
  · intro c hc
    have hc' := (stripWs_part _).subset hc
    rcases mem_collapseWs c hc' with rfl | ⟨hm, hns⟩
    · exact ⟨by decide, by decide, by decide, Or.inr rfl⟩
    · have h2 := List.mem_filter.mp hm
      have h1 := List.mem_filter.mp h2.1
      obtain ⟨x, hx, hcx⟩ := List.mem_flatMap.mp h1.1
      obtain ⟨y, _, rfl⟩ := List.mem_map.mp hx
      have hcomb : isCombining c = false := by
        have := h1.2
        simpa using this
      obtain ⟨hfix, hdec⟩ := pipeline_char_fixed hcx hcomb
      have hword : isWordChar c = true := by
        have := h2.2
        simp only [Bool.or_eq_true] at this
        rcases this with h | h
        · exact h
        · rw [h] at hns
          exact Bool.noConfusion hns
      exact ⟨hfix, hdec, hcomb, Or.inl hword⟩
  · exact List.Chain'.infix (collapseWs_chain' _) (stripWs_part _)

theorem canonical_fixed {l : List Char} (h : CanonicalNorm l) :
    normalizeL l = l := by
  obtain ⟨hchars, hch, hh, hl⟩ := h
  have h1 : l.map pyLower = l :=
    map_pyLower_fixed (fun c hc => (hchars c hc).1)
  have h2 : l.flatMap nfdChar = l :=
    flatMap_nfd_fixed (fun c hc => (hchars c hc).2.1)
  have h3 : l.filter (fun c => !isCombining c) = l :=
    List.filter_eq_self.mpr (fun c hc => by simp [(hchars c hc).2.2.1])
  have h4 : l.filter (fun c => isWordChar c || isPySpace c) = l := by
    refine List.filter_eq_self.mpr (fun c hc => ?_)
    rcases (hchars c hc).2.2.2 with hw | rfl
    · simp [hw]
    · decide
  have h5 : collapseWs l = l := by
    refine collapseWs_fixed (fun c hc hs => ?_) hch
    rcases (hchars c hc).2.2.2 with hw | rfl
    · rw [isWordChar_not_space hw] at hs
      exact Bool.noConfusion hs
    · rfl
  have h6 : stripWs l = l := stripWs_fixed hh hl
  unfold normalizeL
  rw [h1, h2, h3, h4, h5, h6]

/-- C6: `normalize_city_name` is idempotent. -/
theorem normalize_city_name_idempotent (s : String) :
    normalize_city_name (normalize_city_name s) = normalize_city_name s := by
  have h : normalizeL (normalizeL s.data) = normalizeL s.data :=
    canonical_fixed (normalizeL_canonical s.data)
  show String.mk (normalizeL (String.mk (normalizeL s.data)).data) =
    String.mk (normalizeL s.data)
  exact congrArg String.mk h

/-- C7 (amended): every character of `normalize_city_name`'s output is a
word character — alphanumeric *or underscore*, since `\w` keeps `_` — or a
single space; whitespace runs are collapsed (no two adjacent whitespace
characters remain) and the result has no leading or trailing whitespace. -/
theorem normalize_city_name_output_charset (s : String) :
    (∀ c ∈ (normalize_city_name s).data, isWordChar c = true ∨ c = ' ') ∧
    (normalize_city_name s).data.Chain'
      (fun a b => isPySpace a = false ∨ isPySpace b = false) ∧
    (∀ c, (normalize_city_name s).data.head? = some c →
      isPySpace c = false) ∧
    (∀ c, (normalize_city_name s).data.getLast? = some c →
      isPySpace c = false) := by
  obtain ⟨hchars, hch, hh, hl⟩ := normalizeL_canonical s.data
  exact ⟨fun c hc => (hchars c hc).2.2.2, hch, hh, hl⟩

/-- Witness for C7 (amended) at the concrete input `" S.José  do_X "`. -/
theorem normalize_city_name_output_charset_witness :
    (∀ c ∈ (normalize_city_name " S.José  do_X ").data,
      isWordChar c = true ∨ c = ' ') ∧
    (normalize_city_name " S.José  do_X ").data.Chain'
      (fun a b => isPySpace a = false ∨ isPySpace b = false) ∧
    (∀ c, (normalize_city_name " S.José  do_X ").data.head? = some c →
      isPySpace c = false) ∧
    (∀ c, (normalize_city_name " S.José  do_X ").data.getLast? = some c →
      isPySpace c = false) :=
  normalize_city_name_output_charset " S.José  do_X "

/-- Counterexample to C7 as stated: the output of `normalize_city_name` on
`"_"` is `"_"`, and the underscore is neither alphanumeric nor whitespace —
Python's `\w` class keeps it. -/
theorem normalize_city_name_keeps_underscore :
    normalize_city_name "_" = "_" ∧ Char.isAlphanum '_' = false ∧
      Char.isWhitespace '_' = false ∧ isPySpace '_' = false :=
  ⟨by decide, by decide, by decide, by decide⟩

/-- Witness for C1 at a concrete instance. -/
theorem find_records_in_radius_sorted_bounded_stable_witness :
    (find_records_in_radius (mkGeoUtils (fun _ _ _ _ => .finite 0))
        (.finite 0) (.finite 10) (.finite 5)
        [⟨"dados_criminais",
          [[("latitude", ⟨"1.0", some (.finite 1)⟩),
            ("longitude", ⟨"10.0", some (.finite 10)⟩)]]⟩]).Pairwise
      (fun a b => pyLe a.distancia_km b.distancia_km = true) ∧
    (∀ e ∈ find_records_in_radius (mkGeoUtils (fun _ _ _ _ => .finite 0))
        (.finite 0) (.finite 10) (.finite 5)
        [⟨"dados_criminais",
          [[("latitude", ⟨"1.0", some (.finite 1)⟩),
            ("longitude", ⟨"10.0", some (.finite 10)⟩)]]⟩],
      pyLe e.distancia_km (.finite 5) = true) ∧
    (∀ d, (find_records_in_radius (mkGeoUtils (fun _ _ _ _ => .finite 0))
        (.finite 0) (.finite 10) (.finite 5)
        [⟨"dados_criminais",
          [[("latitude", ⟨"1.0", some (.finite 1)⟩),
            ("longitude", ⟨"10.0", some (.finite 10)⟩)]]⟩]).filter
        (fun e => e.distancia_km == d) =
      (radiusCandidates (mkGeoUtils (fun _ _ _ _ => .finite 0))
        (.finite 0) (.finite 10) (.finite 5)
        [⟨"dados_criminais",
          [[("latitude", ⟨"1.0", some (.finite 1)⟩),
            ("longitude", ⟨"10.0", some (.finite 10)⟩)]]⟩]).filter
        (fun e => e.distancia_km == d)) :=
  find_records_in_radius_sorted_bounded_stable
    (mkGeoUtils (fun _ _ _ _ => .finite 0)) (.finite 0) (.finite 10)
    (.finite 5)
    [⟨"dados_criminais",
      [[("latitude", ⟨"1.0", some (.finite 1)⟩),
        ("longitude", ⟨"10.0", some (.finite 10)⟩)]]⟩]
